import Mathlib

/-!
Verification of the youth-wellness diary backend.

This file gives a shallow embedding, in Lean 4, of the request-level logic of
the repository (diary entry store, insight pipeline, aggregator, sentiment
analyzers and authentication middleware), translated from the JavaScript
sources:

* `src/models/diaryModel.js` — the Firestore-backed entry/insight store,
* `src/services/diaryService.js` — validation, aggregation and the
  fire-and-forget analysis pipeline,
* `src/services/vertexAIService.js` — the JSON-extraction and defaulting
  logic applied to generative-provider responses,
* `src/middleware/authMiddleware.js` and the route files — bearer-token
  authentication,
* `src/controllers/diaryController.js` — HTTP status shaping.

Asynchronous database calls are modelled as pure state transformers over a
`DiaryState`; provider calls are modelled by oracles passed in as arguments.
Floating-point sentiment scores are modelled as rationals.
-/

namespace MentalWellness

/-! ### A small JSON model

The generative provider returns raw text that `vertexAIService.js` runs
through `JSON.parse` after extraction.  We embed a JSON value datatype and a
recursive-descent parser for the JSON subset relevant to the analyzed code
(strings with the common escapes, decimal numbers without exponents, arrays,
objects, booleans, null).  As in JavaScript, a duplicate object key keeps its
first position but its last value, and parsing fails on trailing non-space
input. -/

inductive JsonValue where
  | null
  | bool (b : Bool)
  | num (q : ℚ)
  | str (s : String)
  | arr (elems : List JsonValue)
  | obj (fields : List (String × JsonValue))

/-- Whitespace skipped by `JSON.parse` between tokens. -/
def jsonSkipWs : List Char → List Char
  | [] => []
  | c :: cs => if c = ' ' ∨ c = '\n' ∨ c = '\t' ∨ c = '\r' then jsonSkipWs cs else c :: cs

/-- Numeric value of a digit run, most significant first. -/
def digitsVal (ds : List Char) : Nat :=
  ds.foldl (fun n c => 10 * n + (c.toNat - 48)) 0

/-- Parse the remainder of a JSON string literal (the opening quote has been
consumed), handling the standard one-character escapes. -/
def parseStringRest : List Char → Option (String × List Char)
  | [] => none
  | '"' :: rest => some ("", rest)
  | '\\' :: e :: rest =>
    let esc : Option Char :=
      if e = '"' then some '"'
      else if e = '\\' then some '\\'
      else if e = '/' then some '/'
      else if e = 'n' then some '\n'
      else if e = 't' then some '\t'
      else if e = 'r' then some '\r'
      else if e = 'b' then some (Char.ofNat 8)
      else if e = 'f' then some (Char.ofNat 12)
      else none
    match esc with
    | none => none
    | some c =>
      match parseStringRest rest with
      | some (s, r) => some (⟨c :: s.data⟩, r)
      | none => none
  | c :: rest =>
    match parseStringRest rest with
    | some (s, r) => some (⟨c :: s.data⟩, r)
    | none => none

/-- Parse a JSON number (optional minus, integer part, optional fraction). -/
def parseNumber (l : List Char) : Option (ℚ × List Char) :=
  let (neg, l1) := match l with
    | '-' :: r => (true, r)
    | _ => (false, l)
  let ds := l1.takeWhile Char.isDigit
  let l2 := l1.dropWhile Char.isDigit
  if ds.isEmpty then none
  else
    let fracPart : ℚ × List Char := match l2 with
      | '.' :: r =>
        let fs := r.takeWhile Char.isDigit
        ((digitsVal fs : ℚ) / ((10 : ℚ) ^ fs.length), r.dropWhile Char.isDigit)
      | _ => (0, l2)
    let mag : ℚ := (digitsVal ds : ℚ) + fracPart.1
    some (if neg then -mag else mag, fracPart.2)

/-- Install an object member parsed at the head of a member list with
JavaScript semantics: if the key occurs again later (a duplicate), the
earlier position is kept but the later value wins. -/
def combineField (k : String) (v : JsonValue) (fields : List (String × JsonValue)) :
    List (String × JsonValue) :=
  match fields.find? (fun p => p.1 == k) with
  | some p => (k, p.2) :: fields.filter (fun q => q.1 ≠ k)
  | none => (k, v) :: fields

mutual

/-- Fueled recursive-descent parser for a JSON value. -/
def parseVal : Nat → List Char → Option (JsonValue × List Char)
  | 0, _ => none
  | fuel + 1, l =>
    match jsonSkipWs l with
    | 'n' :: 'u' :: 'l' :: 'l' :: rest => some (.null, rest)
    | 't' :: 'r' :: 'u' :: 'e' :: rest => some (.bool true, rest)
    | 'f' :: 'a' :: 'l' :: 's' :: 'e' :: rest => some (.bool false, rest)
    | '"' :: rest =>
      match parseStringRest rest with
      | some (s, r) => some (.str s, r)
      | none => none
    | '[' :: rest =>
      (match jsonSkipWs rest with
       | ']' :: r => some (.arr [], r)
       | l2 =>
         match parseArrItems fuel l2 with
         | some (xs, r) => some (.arr xs, r)
         | none => none)
    | '{' :: rest =>
      (match jsonSkipWs rest with
       | '}' :: r => some (.obj [], r)
       | l2 =>
         match parseObjItems fuel l2 with
         | some (fs, r) => some (.obj fs, r)
         | none => none)
    | l2 =>
      match parseNumber l2 with
      | some (q, r) => some (.num q, r)
      | none => none

/-- Parse a non-empty comma-separated list of array elements, up to and
including the closing bracket. -/
def parseArrItems : Nat → List Char → Option (List JsonValue × List Char)
  | 0, _ => none
  | fuel + 1, l =>
    match parseVal fuel l with
    | none => none
    | some (v, rest) =>
      match jsonSkipWs rest with
      | ',' :: r =>
        (match parseArrItems fuel r with
         | some (xs, r2) => some (v :: xs, r2)
         | none => none)
      | ']' :: r => some ([v], r)
      | _ => none

/-- Parse a non-empty comma-separated list of object members, up to and
including the closing brace.  A duplicated key keeps its first position and
its last value, as in a JavaScript object. -/
def parseObjItems : Nat → List Char → Option (List (String × JsonValue) × List Char)
  | 0, _ => none
  | fuel + 1, l =>
    match jsonSkipWs l with
    | '"' :: rest =>
      (match parseStringRest rest with
       | none => none
       | some (k, r1) =>
         match jsonSkipWs r1 with
         | ':' :: r2 =>
           (match parseVal fuel r2 with
            | none => none
            | some (v, r3) =>
              match jsonSkipWs r3 with
              | ',' :: r4 =>
                (match parseObjItems fuel r4 with
                 | some (fs, r5) => some (combineField k v fs, r5)
                 | none => none)
              | '}' :: r4 => some ([(k, v)], r4)
              | _ => none)
         | _ => none)
    | _ => none

end

/-- Run the JSON parser on a character list, requiring that only whitespace
remains, as `JSON.parse` does. -/
def parseJsonChars (l : List Char) : Option JsonValue :=
  match parseVal (l.length + 1) l with
  | some (v, rest) => if (jsonSkipWs rest).isEmpty then some v else none
  | none => none

/-- Property lookup on a JSON value: only objects have fields. -/
def getField (v : JsonValue) (k : String) : Option JsonValue :=
  match v with
  | .obj fs => (fs.find? (fun p => p.1 == k)).map (fun p => p.2)
  | _ => none

/-! ### The Vertex AI response adapters

`vertexAIService.js` post-processes raw generative-model text.
`analyzeUserSentiment` trims, removes markdown code-fence markers
(`replace(/```json\n?/g, '')` then `replace(/```\n?/g, '')`), extracts the
span matched by the greedy regex `/\{[\s\S]*\}/` (from the first opening
brace to the last closing brace), runs `JSON.parse`, and coerces the four
expected fields; every failure is caught and replaced by a fixed default
record.  `analyzeDiaryEntry` only extracts the same greedy span, parses it,
and returns the parsed object unchanged, falling back to a fixed whole
object when extraction or parsing fails. -/

/-- Global replacement of the regex pattern consisting of the characters
backtick backtick backtick j s o n followed by an optional newline, by the
empty string (first `replace` call in `analyzeUserSentiment`). -/
def stripFenceJson : List Char → List Char
  | '`' :: '`' :: '`' :: 'j' :: 's' :: 'o' :: 'n' :: '\n' :: rest => stripFenceJson rest
  | '`' :: '`' :: '`' :: 'j' :: 's' :: 'o' :: 'n' :: rest => stripFenceJson rest
  | c :: cs => c :: stripFenceJson cs
  | [] => []

/-- Global replacement of three backticks followed by an optional newline by
the empty string (second `replace` call in `analyzeUserSentiment`). -/
def stripFence3 : List Char → List Char
  | '`' :: '`' :: '`' :: '\n' :: rest => stripFence3 rest
  | '`' :: '`' :: '`' :: rest => stripFence3 rest
  | c :: cs => c :: stripFence3 cs
  | [] => []

/-- The match of the greedy regex over an opening brace, any characters, and
a closing brace: the span from the first opening brace to the last closing
brace after it, or nothing when no such span exists. -/
def extractBraces (l : List Char) : Option (List Char) :=
  match l.dropWhile (fun c => c ≠ '{') with
  | [] => none
  | c :: rest =>
    match rest.reverse.dropWhile (fun c => c ≠ '}') with
    | [] => none
    | r => some (c :: r.reverse)

/-- The sentiment labels `analyzeUserSentiment` accepts. -/
def validSentiments : List String := ["positive", "neutral", "negative"]

/-- The urgency labels `analyzeUserSentiment` accepts. -/
def validUrgency : List String := ["low", "medium", "high"]

/-- The four expected fields of the sentiment analysis.  The source mutates
the parsed object in place; values observed through any other field of the
parse result are not modelled.  Emotions are kept as raw JSON values: the
source only checks `Array.isArray`, not the element type. -/
structure SentimentAnalysis where
  sentiment : String
  urgency : String
  emotions : List JsonValue
  needsSupport : Bool

/-- The fallback returned when any step of `analyzeUserSentiment` throws. -/
def defaultSentimentAnalysis : SentimentAnalysis :=
  { sentiment := "neutral", urgency := "low", emotions := [.str "unknown"], needsSupport := false }

/-- Per-field validation of `analyzeUserSentiment`: a missing or ill-typed
field is replaced by its documented default, a present valid field is kept.
On a non-object parse result every lookup misses, which matches the
observable outcome of the source (property assignment on a non-object either
throws into the fallback `catch` or decorates a value whose four expected
fields held none of the accepted shapes). -/
def coerceSentimentFields (v : JsonValue) : SentimentAnalysis where
  sentiment :=
    match getField v "sentiment" with
    | some (.str s) => if validSentiments.contains s then s else "neutral"
    | _ => "neutral"
  urgency :=
    match getField v "urgency" with
    | some (.str s) => if validUrgency.contains s then s else "low"
    | _ => "low"
  emotions :=
    match getField v "emotions" with
    | some (.arr xs) => xs
    | _ => [.str "unknown"]
  needsSupport :=
    match getField v "needsSupport" with
    | some (.bool b) => b
    | _ => false

/-- The JavaScript `trim()`: leading and trailing whitespace removed. -/
def jsTrim (l : List Char) : List Char :=
  ((l.dropWhile Char.isWhitespace).reverse.dropWhile Char.isWhitespace).reverse

/-- The cleaning pipeline of `analyzeUserSentiment` before `JSON.parse`:
trim, strip both fence patterns, then keep the greedy brace span when one
exists (the source keeps the whole cleaned string when the regex does not
match). -/
def cleanSentimentInput (raw : String) : List Char :=
  let cleaned := stripFence3 (stripFenceJson (jsTrim raw.data))
  match extractBraces cleaned with
  | some m => m
  | none => cleaned

/-- `VertexAIService.analyzeUserSentiment`, as a function of the raw text
returned by the provider.  Total: every failure path lands in the default
record, never in an exception. -/
def analyzeUserSentimentM (raw : String) : SentimentAnalysis :=
  match parseJsonChars (cleanSentimentInput raw) with
  | some v => coerceSentimentFields v
  | none => defaultSentimentAnalysis

/-- The fixed fallback object of `analyzeDiaryEntry`, used when JSON
extraction or parsing fails. -/
def diaryFallback : JsonValue :=
  .obj [("themes", .arr [.str "personal_reflection"]),
        ("triggers", .arr []),
        ("copingStrategies", .arr []),
        ("emotionalState", .str "mixed"),
        ("stressLevel", .str "medium"),
        ("supportNeeded", .str "general"),
        ("positiveAspects", .arr [.str "self_awareness"]),
        ("concernAreas", .arr []),
        ("culturalContext", .str "general")]

/-- `VertexAIService.analyzeDiaryEntry`, as a function of the raw text
returned by the provider: greedy brace extraction, `JSON.parse`, and the
parsed value returned unchanged on success — no per-field defaulting. -/
def analyzeDiaryEntryM (raw : String) : JsonValue :=
  match extractBraces raw.data with
  | some m =>
    (match parseJsonChars m with
     | some v => v
     | none => diaryFallback)
  | none => diaryFallback

/-! ### The diary entry store (`diaryModel.js`)

The Firestore collections `diaryEntries` and `diaryInsights` are modelled as
an id-keyed entry list and an insight list inside one `DiaryState`; document
ids are natural numbers drawn from a counter.  `await`ed database calls
become pure state transformers, and timestamps (`new Date()`) are passed in
explicitly as an integer clock value. -/

/-- The derived word/character statistics stored on an entry. -/
structure EntryMetadata where
  wordCount : Nat
  characterCount : Nat
deriving DecidableEq

/-- A diary entry document. -/
structure Entry where
  userId : String
  content : String
  mood : Option String
  tags : List String
  createdAt : Int
  updatedAt : Int
  processed : Bool
  processedAt : Option Int
  metadata : EntryMetadata
deriving DecidableEq

/-- A sentiment score/magnitude pair from the language API. -/
structure SentimentScore where
  score : ℚ
  magnitude : ℚ
deriving DecidableEq

/-- A named emotion with a confidence. -/
structure EmotionItem where
  name : String
  confidence : ℚ
deriving DecidableEq

/-- A named entity with a salience. -/
structure EntityItem where
  name : String
  salience : ℚ
deriving DecidableEq

/-- A stored insight document.  `sentiment` is optional because the
aggregation code guards `insight.sentiment && insight.sentiment.score !==
undefined`. -/
structure Insight where
  entryId : Nat
  sentiment : Option SentimentScore
  emotions : List EmotionItem
  entities : List EntityItem
  themes : List String
  triggers : List String
  copingStrategies : List String
  createdAt : Int
deriving DecidableEq

/-- The two document collections plus the id counter. -/
structure DiaryState where
  entries : List (Nat × Entry)
  insights : List Insight
  nextId : Nat
deriving DecidableEq

/-- The empty store. -/
def initState : DiaryState := { entries := [], insights := [], nextId := 0 }

/-- Errors thrown by `getEntryById` (and wrapped upward unchanged in what
they convey: the controller maps the message back to 404 / 403). -/
inductive DiaryError where
  | notFound
  | unauthorized
deriving DecidableEq

/-- The request body of a create call. -/
structure EntryData where
  content : String
  mood : Option String
  tags : Option (List String)

/-- The field list of the JavaScript `content.split(' ')`: fields separated
by single space characters, empty fields included (so the result is never
empty). -/
def jsSplitSpace : List Char → List (List Char)
  | [] => [[]]
  | c :: cs =>
    match jsSplitSpace cs with
    | [] => [[]]
    | f :: rest => if c = ' ' then [] :: f :: rest else (c :: f) :: rest

/-- Word count as computed by the source: `content.split(' ').length`. -/
def jsWordCount (content : String) : Nat := (jsSplitSpace content.data).length

/-- `DiaryModel.createEntry`: builds the document (`processed: false`,
`mood || null`, `tags || []`, derived metadata) and adds it under a fresh
id.  The keyed collection is modelled with the new document in front; ids
are unique by construction of the counter. -/
def createEntryM (userId : String) (d : EntryData) (now : Int) (s : DiaryState) :
    (Nat × Entry) × DiaryState :=
  let e : Entry :=
    { userId := userId
      content := d.content
      mood := d.mood
      tags := d.tags.getD []
      createdAt := now
      updatedAt := now
      processed := false
      processedAt := none
      metadata := { wordCount := jsWordCount d.content, characterCount := d.content.length } }
  ((s.nextId, e),
   { entries := (s.nextId, e) :: s.entries, insights := s.insights, nextId := s.nextId + 1 })

/-- `DiaryModel.getEntryById`: existence is checked before ownership, so the
two error kinds are distinguishable. -/
def getEntryByIdM (entryId : Nat) (userId : String) (s : DiaryState) :
    Except DiaryError Entry :=
  match s.entries.find? (fun p => p.1 == entryId) with
  | none => .error .notFound
  | some p => if p.2.userId ≠ userId then .error .unauthorized else .ok p.2

/-- The request body of an update call; a field that is absent is left
unchanged by the object spread in the source. -/
structure UpdateData where
  content : Option String
  mood : Option String
  tags : Option (List String)

/-- `DiaryModel.updateEntry`: re-reads the entry with the ownership check,
merges the updates, refreshes `updatedAt`, always resets `processed` to
false, and recomputes `metadata` when a (truthy, hence non-empty) `content`
is part of the update. -/
def updateEntryM (entryId : Nat) (userId : String) (u : UpdateData) (now : Int)
    (s : DiaryState) : Except DiaryError (Entry × DiaryState) :=
  match getEntryByIdM entryId userId s with
  | .error e => .error e
  | .ok e =>
    let newMeta : EntryMetadata :=
      match u.content with
      | some c =>
        if c ≠ "" then { wordCount := jsWordCount c, characterCount := c.length }
        else e.metadata
      | none => e.metadata
    let e2 : Entry :=
      { e with
        content := u.content.getD e.content
        mood := match u.mood with | some m => some m | none => e.mood
        tags := u.tags.getD e.tags
        updatedAt := now
        processed := false
        metadata := newMeta }
    .ok (e2, { s with entries := s.entries.map (fun p => if p.1 = entryId then (p.1, e2) else p) })

/-- `DiaryModel.deleteEntryInsights`: batch-deletes every insight whose
`entryId` matches. -/
def deleteEntryInsightsM (entryId : Nat) (s : DiaryState) : DiaryState :=
  { s with insights := s.insights.filter (fun i => i.entryId ≠ entryId) }

/-- `DiaryModel.deleteEntry`: ownership-checked read, delete the entry
document, then cascade-delete its insights. -/
def deleteEntryM (entryId : Nat) (userId : String) (s : DiaryState) :
    Except DiaryError DiaryState :=
  match getEntryByIdM entryId userId s with
  | .error e => .error e
  | .ok _ =>
    .ok (deleteEntryInsightsM entryId { s with entries := s.entries.filter (fun p => p.1 ≠ entryId) })

/-- The payload handed to `storeInsights`; `triggers` and `copingStrategies`
are defaulted with `|| []` in the source. -/
structure InsightInput where
  sentiment : Option SentimentScore
  emotions : List EmotionItem
  entities : List EntityItem
  themes : List String
  triggers : Option (List String)
  copingStrategies : Option (List String)

/-- `DiaryModel.storeInsights`: persists the insight document first, then
marks the entry processed (`processed: true`, `processedAt`).  When the
entry no longer exists, the source's `updateDoc` throws after the insight
was already written; the insight is added and no flag changes, which the
entry-map update models. -/
def storeInsightsM (entryId : Nat) (ins : InsightInput) (now : Int) (s : DiaryState) :
    Insight × DiaryState :=
  let i : Insight :=
    { entryId := entryId
      sentiment := ins.sentiment
      emotions := ins.emotions
      entities := ins.entities
      themes := ins.themes
      triggers := ins.triggers.getD []
      copingStrategies := ins.copingStrategies.getD []
      createdAt := now }
  (i, { s with
        insights := i :: s.insights
        entries := s.entries.map (fun p =>
          if p.1 = entryId then (p.1, { p.2 with processed := true, processedAt := some now }) else p) })

/-- `DiaryModel.getEntryInsights`: all insights referencing the entry. -/
def getEntryInsightsM (entryId : Nat) (s : DiaryState) : List Insight :=
  s.insights.filter (fun i => i.entryId == entryId)

/-- Stable insertion into a list ordered by `createdAt` descending; the new
element goes after existing elements with the same timestamp. -/
def insertByCreatedAtDesc (x : Nat × Entry) : List (Nat × Entry) → List (Nat × Entry)
  | [] => [x]
  | y :: ys => if x.2.createdAt > y.2.createdAt then x :: y :: ys else y :: insertByCreatedAtDesc x ys

/-- Stable sort by `createdAt` descending, modelling the
`orderBy('createdAt', 'desc')` of the entry query. -/
def sortByCreatedAtDesc (l : List (Nat × Entry)) : List (Nat × Entry) :=
  l.foldl (fun acc x => insertByCreatedAtDesc x acc) []

/-- `DiaryModel.getUserEntries`: owner filter, newest-first order, optional
conjunctive date bounds, optional limit. -/
def getUserEntriesM (userId : String) (startDate endDate : Option Int) (lim : Option Nat)
    (s : DiaryState) : List (Nat × Entry) :=
  let l := s.entries.filter (fun p => p.2.userId == userId)
  let l := match startDate with
    | some d => l.filter (fun p => p.2.createdAt ≥ d)
    | none => l
  let l := match endDate with
    | some d => l.filter (fun p => p.2.createdAt ≤ d)
    | none => l
  let sorted := sortByCreatedAtDesc l
  match lim with
  | some n => sorted.take n
  | none => sorted

/-! ### The unprocessed-entry query and the batch pipeline

In `diaryModel.getUnprocessedEntries(limit = 10)` the parameter `limit`
shadows the Firestore query helper `limit` imported at the top of
`diaryModel.js`, so the constraint expression `limit(limit)` applies the
number to itself and throws `TypeError: limit is not a function` before the
query can run.  We model the JavaScript call operator on a non-function
value explicitly so the shadowing is visible in the embedding. -/

/-- A JavaScript call whose callee is a number: always a `TypeError`.  The
value type is the entry list the query would otherwise produce. -/
def jsCallNumber (_callee : Nat) (_arg : Nat) : Except String (List (Nat × Entry)) :=
  .error "limit is not a function"

/-- `DiaryModel.getUnprocessedEntries`: the `where('processed','==',false)`
query with the shadowed `limit(limit)` constraint.  The success branch holds
the query the source intends but never reaches. -/
def getUnprocessedEntriesM (lim : Nat) (s : DiaryState) :
    Except String (List (Nat × Entry)) :=
  match jsCallNumber lim lim with
  | .error e => .error ("Failed to get unprocessed entries: " ++ e)
  | .ok _ => .ok ((s.entries.filter (fun p => p.2.processed == false)).take lim)

/-- Modelled from the spec: the selection step of `processPending(limit)` —
"selects up to `limit` Entries with `processed=false`" — without the
shadowing slip of the source. -/
def specGetUnprocessed (lim : Nat) (s : DiaryState) : List (Nat × Entry) :=
  (s.entries.filter (fun p => p.2.processed == false)).take lim

/-- An analysis oracle: the combined outcome of the two language-API calls
and the Vertex call for a given entry id, `none` when any of them (or the
subsequent store) fails. -/
def AnalysisOracle : Type := Nat → Option InsightInput

/-- `DiaryService.analyzeEntryAsync`: on success the combined insight is
stored (which also flips `processed`); every exception is caught and logged,
leaving the state unchanged. -/
def analyzeEntryAsyncM (oracle : AnalysisOracle) (entryId : Nat) (now : Int)
    (s : DiaryState) : DiaryState :=
  match oracle entryId with
  | some ins => (storeInsightsM entryId ins now s).2
  | none => s

/-- `DiaryService.processPendingAnalysis(limit = 5)`: fetch the unprocessed
entries, run `analyzeEntryAsync` for each and `await Promise.all` of them,
then return the count of fetched entries.  Because of the shadowed `limit`
the fetch always throws, and the catch rethrows a wrapped error. -/
def processPendingAnalysisM (lim : Nat) (oracle : AnalysisOracle) (now : Int)
    (s : DiaryState) : Except String (DiaryState × Nat) :=
  match getUnprocessedEntriesM lim s with
  | .error e => .error ("Failed to process pending analysis: " ++ e)
  | .ok sel =>
    .ok (sel.foldl (fun st p => analyzeEntryAsyncM oracle p.1 now st) s, sel.length)

/-- Modelled from the spec: `processPending(limit)` as §4.3 describes it —
select up to `limit` unprocessed entries, invoke `analyze` for each, return
the number submitted. -/
def specProcessPending (lim : Nat) (oracle : AnalysisOracle) (now : Int)
    (s : DiaryState) : DiaryState × Nat :=
  let sel := specGetUnprocessed lim s
  (sel.foldl (fun st p => analyzeEntryAsyncM oracle p.1 now st) s, sel.length)

/-! ### Service-level validation and the create-entry endpoint -/

/-- The service-level error of `diaryService.js` (message-bearing
`Error`s; the validation messages are the two below). -/
inductive ServiceError where
  | validation (msg : String)
deriving DecidableEq

/-- The check `!entryData.content || entryData.content.trim().length === 0`:
the content is missing entirely, or trims to nothing — equivalently, every
character is whitespace (true of the empty string). -/
def jsIsBlank (s : String) : Bool := s.data.all Char.isWhitespace

/-- `DiaryService.createEntry`: validation then model create.  The service
fires `analyzeEntryAsync` without awaiting it, so the returned state does
not include any analysis effect. -/
def dsCreateEntry (userId : String) (d : EntryData) (now : Int) (s : DiaryState) :
    Except ServiceError ((Nat × Entry) × DiaryState) :=
  if jsIsBlank d.content then .error (.validation "Entry content is required")
  else if d.content.length > 10000 then
    .error (.validation "Entry content is too long (max 10,000 characters)")
  else .ok (createEntryM userId d now s)

/-- An HTTP response as far as the claims observe it. -/
structure HttpResponse where
  status : Nat
deriving DecidableEq

/-- `DiaryController.createEntry`: missing or empty-string (falsy) content
is answered 400 before the service runs; any error thrown by the service —
including its validation errors for whitespace-only or oversized content —
lands in the catch-all 500; success is 201. -/
def diaryCreateEntryC (userId : String) (content : Option String) (mood : Option String)
    (tags : Option (List String)) (now : Int) (s : DiaryState) : HttpResponse × DiaryState :=
  match content with
  | none => ({ status := 400 }, s)
  | some c =>
    if c = "" then ({ status := 400 }, s)
    else
      match dsCreateEntry userId { content := c, mood := mood, tags := tags } now s with
      | .ok (_, s2) => ({ status := 201 }, s2)
      | .error _ => ({ status := 500 }, s)

/-! ### The sentiment trend and the emotional-insight aggregation
(`diaryService.js`) -/

/-- `reduce((a, b) => a + b, 0)`. -/
def jsSum (l : List ℚ) : ℚ := l.foldl (· + ·) 0

/-- `DiaryService.calculateTrend` over the given score sequence. -/
def calculateTrend (scores : List ℚ) : String :=
  if scores.length < 2 then "neutral"
  else
    let firstHalf := scores.take (scores.length / 2)
    let secondHalf := scores.drop (scores.length / 2)
    let firstAvg := jsSum firstHalf / (firstHalf.length : ℚ)
    let secondAvg := jsSum secondHalf / (secondHalf.length : ℚ)
    let difference := secondAvg - firstAvg
    if difference > 1/10 then "improving"
    else if difference < -(1/10) then "declining"
    else "stable"

/-- Modelled from the spec, §4.4: compare the mean sentiment of the first
half of the score sequence with the mean of the second half; a difference
above 0.1 is "improving", below -0.1 "declining", otherwise "stable", and
fewer than two scores give "neutral". -/
def specSentimentTrend (scores : List ℚ) : String :=
  if scores.length < 2 then "neutral"
  else
    let n := scores.length / 2
    let meanFirst := jsSum (scores.take n) / ((scores.take n).length : ℚ)
    let meanSecond := jsSum (scores.drop n) / ((scores.drop n).length : ℚ)
    if meanSecond - meanFirst > 1/10 then "improving"
    else if meanSecond - meanFirst < -(1/10) then "declining"
    else "stable"

/-- One step of counting into a JavaScript object used as a counter: an
existing key is incremented in place, a new key is appended (string keys
keep insertion order, so `Object.entries` later lists keys in first-seen
order). -/
def bumpCount : List (String × Nat) → String → List (String × Nat)
  | [], k => [(k, 1)]
  | (k2, c) :: rest, k =>
    if k2 = k then (k2, c + 1) :: rest else (k2, c) :: bumpCount rest k

/-- Stable insertion for a descending sort by count: the new element passes
only strictly smaller counts, so among equal counts earlier elements stay
first. -/
def insertCountDesc (x : String × Nat) : List (String × Nat) → List (String × Nat)
  | [] => [x]
  | y :: ys => if x.2 > y.2 then x :: y :: ys else y :: insertCountDesc x ys

/-- The stable `.sort(([,a],[,b]) => b - a)` over `Object.entries` of a
counter. -/
def jsSortCountDesc (l : List (String × Nat)) : List (String × Nat) :=
  l.foldl (fun acc x => insertCountDesc x acc) []

/-- First-seen deduplication, the order a JavaScript `Set` iterates in. -/
def jsSetDedupAux {α : Type} [DecidableEq α] (seen : List α) : List α → List α
  | [] => []
  | x :: xs => if x ∈ seen then jsSetDedupAux seen xs else x :: jsSetDedupAux (x :: seen) xs

/-- `[...new Set(l)]`. -/
def jsSetDedup {α : Type} [DecidableEq α] (l : List α) : List α := jsSetDedupAux [] l

/-- All emotion names of the insight list, in iteration order. -/
def emotionNames (ins : List Insight) : List String :=
  ins.flatMap (fun i => i.emotions.map (fun e => e.name))

/-- The emotion counter built by `processEmotionalInsights`. -/
def emotionCounts (ins : List Insight) : List (String × Nat) :=
  (emotionNames ins).foldl bumpCount []

/-- The theme counter built by `processEmotionalInsights`. -/
def themeCounts (ins : List Insight) : List (String × Nat) :=
  (ins.flatMap (fun i => i.themes)).foldl bumpCount []

/-- The sentiment scores collected by `processEmotionalInsights` (those with
a sentiment object carrying a score). -/
def sentimentScoresOf (ins : List Insight) : List ℚ :=
  ins.filterMap (fun i => i.sentiment.map (fun sc => sc.score))

/-- All triggers of the insight list, concatenated in iteration order. -/
def allTriggers (ins : List Insight) : List String :=
  ins.flatMap (fun i => i.triggers)

/-- All coping strategies of the insight list, in iteration order. -/
def allCopingStrategies (ins : List Insight) : List String :=
  ins.flatMap (fun i => i.copingStrategies)

/-- `topEmotions`: counter entries sorted by count descending (stable, so
ties keep first-seen order), truncated to 5. -/
def topEmotions (ins : List Insight) : List (String × Nat) :=
  (jsSortCountDesc (emotionCounts ins)).take 5

/-- `topThemes`: like `topEmotions`, over themes. -/
def topThemes (ins : List Insight) : List (String × Nat) :=
  (jsSortCountDesc (themeCounts ins)).take 5

/-- `commonTriggers`: `[...new Set(triggers)].slice(0, 5)` — set-collapsed
in first-seen order, truncated to 5, with no frequency ranking. -/
def commonTriggers (ins : List Insight) : List String :=
  (jsSetDedup (allTriggers ins)).take 5

/-- `effectiveCopingStrategies`: like `commonTriggers`. -/
def effectiveCopingStrategies (ins : List Insight) : List String :=
  (jsSetDedup (allCopingStrategies ins)).take 5

/-- The aggregate record returned by `processEmotionalInsights`. -/
structure EmotionalAggregates where
  averageSentiment : ℚ
  sentimentTrend : String
  topEmotions : List (String × Nat)
  topThemes : List (String × Nat)
  commonTriggers : List String
  effectiveCopingStrategies : List String

/-- `DiaryService.processEmotionalInsights` over an insight list. -/
def processEmotionalInsightsM (ins : List Insight) : EmotionalAggregates :=
  let ss := sentimentScoresOf ins
  { averageSentiment := if ss.length = 0 then 0 else jsSum ss / (ss.length : ℚ)
    sentimentTrend := calculateTrend ss
    topEmotions := topEmotions ins
    topThemes := topThemes ins
    commonTriggers := commonTriggers ins
    effectiveCopingStrategies := effectiveCopingStrategies ins }

/-- The insight sequence that `getEmotionalInsights` feeds into the
aggregation: entries of the user from the window start, newest first (the
`orderBy('createdAt', 'desc')` of `getUserEntries` with `limit: 100`), each
entry's insights appended in that entry order. -/
def gatherInsights (userId : String) (startDate : Int) (s : DiaryState) : List Insight :=
  (getUserEntriesM userId (some startDate) none (some 100) s).flatMap
    (fun p => getEntryInsightsM p.1 s)

/-- The sentiment trend computed by the emotional-insights endpoint. -/
def emotionalInsightsTrend (userId : String) (startDate : Int) (s : DiaryState) : String :=
  calculateTrend (sentimentScoresOf (gatherInsights userId startDate s))

/-! ### The writing streak (`diaryModel.calculateWritingStreak`)

Timestamps are modelled in milliseconds as integers; the
`setHours(0, 0, 0, 0)` normalisation is assumed already applied, so entry
dates and `today` are midnight values. -/

/-- One day in milliseconds. -/
def dayMs : Int := 86400000

/-- Descending insertion for the `.sort((a, b) => b - a)` on timestamps. -/
def insertDescInt (x : Int) : List Int → List Int
  | [] => [x]
  | y :: ys => if x ≥ y then x :: y :: ys else y :: insertDescInt x ys

/-- Sort timestamps most-recent first. -/
def sortDescInt (l : List Int) : List Int := l.foldr insertDescInt []

/-- The streak loop of the source.  The first branch consumes an entry date
equal to the anchor; the second branch — commented "Entry is from yesterday,
continue streak" — actually tests for a date one day AFTER the anchor
(`entryDate === currentDate + 24 * 60 * 60 * 1000`). -/
def streakLoop : Int → List Int → Nat
  | _, [] => 0
  | cur, d :: rest =>
    if d = cur then 1 + streakLoop (cur - dayMs) rest
    else if d = cur + dayMs then 1 + streakLoop (d - dayMs) rest
    else 0

/-- `DiaryModel.calculateWritingStreak` on normalised entry dates. -/
def calculateWritingStreak (today : Int) (entryDates : List Int) : Nat :=
  if entryDates.isEmpty then 0
  else streakLoop today (jsSetDedup (sortDescInt entryDates))

/-- Modelled from the spec, §4.4 `writingStreak`: identical to the source's
loop except that the continuation branch tests for an entry dated exactly
one day BEFORE the current anchor, as the spec (and the source's own
comment) describe. -/
def specStreakLoop : Int → List Int → Nat
  | _, [] => 0
  | cur, d :: rest =>
    if d = cur then 1 + specStreakLoop (cur - dayMs) rest
    else if d = cur - dayMs then 1 + specStreakLoop (d - dayMs) rest
    else 0

/-- Modelled from the spec: `writingStreak` with the intended yesterday
branch. -/
def specWritingStreak (today : Int) (entryDates : List Int) : Nat :=
  if entryDates.isEmpty then 0
  else specStreakLoop today (jsSetDedup (sortDescInt entryDates))

/-! ### Authentication (`authMiddleware.js` and the routers) -/

/-- The relevant process environment: `NODE_ENV === 'development'` and
`SKIP_AUTH === 'true'`. -/
structure AuthEnv where
  nodeEnvDevelopment : Bool
  skipAuthTrue : Bool

/-- The outcome of `jwt.verify`, split along the error classes the
middleware distinguishes by `error.name`. -/
inductive VerifyOutcome where
  | ok (user : String)
  | invalidToken
  | expired
  | otherFailure

/-- What the middleware does with a request: pass it on with an identity
attached, or answer immediately with a status. -/
inductive AuthResult where
  | proceed (user : String)
  | reject (status : Nat)
deriving DecidableEq

/-- The stub identity the development bypass attaches. -/
def testUser : String := "test-user"

/-- `authMiddleware`: the development/SKIP_AUTH bypass, then the
`Bearer `-prefix checks (empty header is falsy), then `jwt.verify` with 401
for `JsonWebTokenError` and `TokenExpiredError` and 500 for any other
verification failure. -/
def authMiddlewareM (env : AuthEnv) (verify : String → VerifyOutcome)
    (authHeader : Option String) : AuthResult :=
  if env.nodeEnvDevelopment || env.skipAuthTrue then .proceed testUser
  else
    match authHeader with
    | none => .reject 401
    | some h =>
      if h = "" then .reject 401
      else if ¬ (List.isPrefixOf ("Bearer " : String).data h.data) then .reject 401
      else
        let token := String.mk (h.data.drop 7)
        if token = "" then .reject 401
        else
          match verify token with
          | .ok u => .proceed u
          | .invalidToken => .reject 401
          | .expired => .reject 401
          | .otherFailure => .reject 500

/-- The auth exemption of `ttsRoutes.js`: only the download and stream
paths skip the middleware; every other tts path (the health check included)
runs it, and the chat and diary routers run it on every path. -/
def ttsAuthExempt (path : String) : Bool :=
  List.isPrefixOf ("/download/" : String).data path.data
    || List.isPrefixOf ("/stream/" : String).data path.data

/-! ## Theorems -/

/-! ### The processed-implies-insight invariant (C1) -/

/-- The invariant of §3: a processed entry has at least one insight
referencing it. -/
def diaryInvariant (s : DiaryState) : Prop :=
  ∀ p ∈ s.entries, p.2.processed = true → ∃ i ∈ s.insights, i.entryId = p.1

/-- The operations of the diary store, as a step relation. -/
inductive DiaryStep : DiaryState → DiaryState → Prop
  | create (userId : String) (d : EntryData) (now : Int) (s : DiaryState) :
      DiaryStep s (createEntryM userId d now s).2
  | store (entryId : Nat) (ins : InsightInput) (now : Int) (s : DiaryState) :
      DiaryStep s (storeInsightsM entryId ins now s).2
  | update (entryId : Nat) (userId : String) (u : UpdateData) (now : Int)
      (s : DiaryState) (e : Entry) (s2 : DiaryState) :
      updateEntryM entryId userId u now s = .ok (e, s2) → DiaryStep s s2
  | delete (entryId : Nat) (userId : String) (s s2 : DiaryState) :
      deleteEntryM entryId userId s = .ok s2 → DiaryStep s s2

/-- States reachable from the empty store by diary operations. -/
def ReachableDiary (s : DiaryState) : Prop :=
  Relation.ReflTransGen DiaryStep initState s

theorem diaryInvariant_create (userId : String) (d : EntryData) (now : Int)
    (s : DiaryState) (h : diaryInvariant s) :
    diaryInvariant (createEntryM userId d now s).2 := by
  intro p hp hproc
  simp only [createEntryM, List.mem_cons] at hp
  rcases hp with rfl | hp
  · simp [createEntryM] at hproc
  · obtain ⟨i, hi, hie⟩ := h p hp hproc
    exact ⟨i, hi, hie⟩

theorem diaryInvariant_store (entryId : Nat) (ins : InsightInput) (now : Int)
    (s : DiaryState) (h : diaryInvariant s) :
    diaryInvariant (storeInsightsM entryId ins now s).2 := by
  intro p hp hproc
  simp only [storeInsightsM, List.mem_map] at hp
  obtain ⟨q, hq, hqe⟩ := hp
  by_cases hk : q.1 = entryId
  · refine ⟨_, List.mem_cons_self _ _, ?_⟩
    rw [if_pos hk] at hqe
    rw [← hqe]
    exact hk.symm
  · rw [if_neg hk] at hqe
    subst hqe
    obtain ⟨i, hi, hie⟩ := h q hq hproc
    exact ⟨i, List.mem_cons_of_mem _ hi, hie⟩

theorem updateEntryM_ok (entryId : Nat) (userId : String) (u : UpdateData) (now : Int)
    (s : DiaryState) (e : Entry) (s2 : DiaryState)
    (h : updateEntryM entryId userId u now s = .ok (e, s2)) :
    e.processed = false
    ∧ s2.insights = s.insights
    ∧ s2.entries = s.entries.map (fun p => if p.1 = entryId then (p.1, e) else p) := by
  unfold updateEntryM at h
  rcases hget : getEntryByIdM entryId userId s with e0 | e0 <;> rw [hget] at h
  · exact absurd h (by simp)
  · simp only [Except.ok.injEq, Prod.mk.injEq] at h
    obtain ⟨he, hs⟩ := h
    subst he
    subst hs
    refine ⟨rfl, rfl, rfl⟩

theorem diaryInvariant_update (entryId : Nat) (userId : String) (u : UpdateData)
    (now : Int) (s : DiaryState) (e : Entry) (s2 : DiaryState)
    (hstep : updateEntryM entryId userId u now s = .ok (e, s2))
    (h : diaryInvariant s) : diaryInvariant s2 := by
  obtain ⟨hpe, hins, hent⟩ := updateEntryM_ok entryId userId u now s e s2 hstep
  intro p hp hproc
  rw [hent] at hp
  simp only [List.mem_map] at hp
  obtain ⟨q, hq, hqe⟩ := hp
  by_cases hk : q.1 = entryId
  · rw [if_pos hk] at hqe
    rw [← hqe] at hproc
    simp [hpe] at hproc
  · rw [if_neg hk] at hqe
    subst hqe
    obtain ⟨i, hi, hie⟩ := h q hq hproc
    exact ⟨i, by rw [hins]; exact hi, hie⟩

theorem deleteEntryM_ok (entryId : Nat) (userId : String) (s s2 : DiaryState)
    (h : deleteEntryM entryId userId s = .ok s2) :
    s2.entries = s.entries.filter (fun p => p.1 ≠ entryId)
    ∧ s2.insights = (s.insights.filter (fun i => i.entryId ≠ entryId)) := by
  unfold deleteEntryM at h
  rcases hget : getEntryByIdM entryId userId s with e0 | e0 <;> rw [hget] at h
  · exact absurd h (by simp)
  · simp only [Except.ok.injEq] at h
    subst h
    exact ⟨rfl, rfl⟩

theorem diaryInvariant_delete (entryId : Nat) (userId : String) (s s2 : DiaryState)
    (hstep : deleteEntryM entryId userId s = .ok s2)
    (h : diaryInvariant s) : diaryInvariant s2 := by
  obtain ⟨hent, hins⟩ := deleteEntryM_ok entryId userId s s2 hstep
  intro p hp hproc
  rw [hent] at hp
  rw [List.mem_filter] at hp
  obtain ⟨hpmem, hpne⟩ := hp
  obtain ⟨i, hi, hie⟩ := h p hpmem hproc
  refine ⟨i, ?_, hie⟩
  rw [hins, List.mem_filter]
  refine ⟨hi, ?_⟩
  simp only [hie]
  simpa using hpne

theorem diaryInvariant_of_reachable (s : DiaryState) (h : ReachableDiary s) :
    diaryInvariant s := by
  induction h with
  | refl => intro p hp _; simp [initState] at hp
  | tail _ step ih =>
    cases step with
    | create userId d now => exact diaryInvariant_create userId d now _ ih
    | store entryId ins now => exact diaryInvariant_store entryId ins now _ ih
    | update =>
      exact diaryInvariant_update _ _ _ _ _ _ _ (by assumption) ih
    | delete =>
      exact diaryInvariant_delete _ _ _ _ (by assumption) ih

/-- C1: in every reachable diary state a processed entry has at least one
insight referencing it, and the four operations behave as the claim lists:
`createEntry` starts entries unprocessed, `storeInsights` leaves the stored
insight in place when it flips the flag, `updateEntry` resets the flag, and
`deleteEntry` removes the entry together with every insight referencing
it. -/
theorem C1_processed_implies_insight :
    (∀ s : DiaryState, ReachableDiary s → diaryInvariant s)
    ∧ (∀ userId d now s, ((createEntryM userId d now s).1.2).processed = false)
    ∧ (∀ entryId ins now s,
        ∃ i ∈ (storeInsightsM entryId ins now s).2.insights, i.entryId = entryId)
    ∧ (∀ entryId userId u now s e s2,
        updateEntryM entryId userId u now s = .ok (e, s2) → e.processed = false)
    ∧ (∀ entryId userId s s2, deleteEntryM entryId userId s = .ok s2 →
        (∀ p ∈ s2.entries, p.1 ≠ entryId) ∧ (∀ i ∈ s2.insights, i.entryId ≠ entryId)) := by
  refine ⟨diaryInvariant_of_reachable, ?_, ?_, ?_, ?_⟩
  · intro userId d now s; rfl
  · intro entryId ins now s
    exact ⟨_, List.mem_cons_self _ _, rfl⟩
  · intro entryId userId u now s e s2 h
    exact (updateEntryM_ok entryId userId u now s e s2 h).1
  · intro entryId userId s s2 h
    obtain ⟨hent, hins⟩ := deleteEntryM_ok entryId userId s s2 h
    constructor
    · intro p hp
      rw [hent, List.mem_filter] at hp
      simpa using hp.2
    · intro i hi
      rw [hins, List.mem_filter] at hi
      simpa using hi.2

/-- Witness for C1 at a concrete reachable state: one create step from the
empty store. -/
theorem C1_witness :
    diaryInvariant (createEntryM "u" ⟨"hello", none, none⟩ 0 initState).2 :=
  C1_processed_implies_insight.1 _
    (Relation.ReflTransGen.single (DiaryStep.create "u" ⟨"hello", none, none⟩ 0 initState))

/-! ### Cascade on delete (C4) -/

/-- C4: after a successful owner delete, the entry reads back as not found
and no insight referencing it remains. -/
theorem C4_delete_cascades (entryId : Nat) (userId : String) (s s2 : DiaryState)
    (h : deleteEntryM entryId userId s = .ok s2) :
    getEntryByIdM entryId userId s2 = .error .notFound
    ∧ ∀ i ∈ s2.insights, i.entryId ≠ entryId := by
  obtain ⟨hent, hins⟩ := deleteEntryM_ok entryId userId s s2 h
  constructor
  · unfold getEntryByIdM
    have hfind : s2.entries.find? (fun p => p.1 == entryId) = none := by
      rw [List.find?_eq_none]
      intro x hx
      rw [hent, List.mem_filter] at hx
      simpa using hx.2
    rw [hfind]
  · intro i hi
    rw [hins, List.mem_filter] at hi
    simpa using hi.2

/-- A one-entry store used by several witnesses: entry id 0 owned by "u". -/
def sampleState : DiaryState :=
  (createEntryM "u" { content := "hello", mood := none, tags := none } 0 initState).2

/-- The store after deleting the only entry of `sampleState`. -/
def sampleDeleted : DiaryState := { entries := [], insights := [], nextId := 1 }

/-- Witness for C4: the concrete delete of the sample entry. -/
theorem C4_witness :
    deleteEntryM 0 "u" sampleState = .ok sampleDeleted
    ∧ (getEntryByIdM 0 "u" sampleDeleted = .error .notFound
       ∧ ∀ i ∈ sampleDeleted.insights, i.entryId ≠ 0) :=
  ⟨by rfl, C4_delete_cascades 0 "u" sampleState sampleDeleted (by rfl)⟩

/-! ### Word-count metadata (C9) -/

/-- The split field list is never empty. -/
theorem jsSplitSpace_ne_nil (l : List Char) : jsSplitSpace l ≠ [] := by
  induction l with
  | nil => simp [jsSplitSpace]
  | cons c cs ih =>
    unfold jsSplitSpace
    rcases h : jsSplitSpace cs with _ | ⟨f, rest⟩
    · exact absurd h ih
    · by_cases hc : c = ' ' <;> simp [hc]

/-- The field count of the JavaScript single-space split is one more than
the number of space characters. -/
theorem jsSplitSpace_length (l : List Char) : (jsSplitSpace l).length = l.count ' ' + 1 := by
  induction l with
  | nil => rfl
  | cons c cs ih =>
    unfold jsSplitSpace
    rcases h : jsSplitSpace cs with _ | ⟨f, rest⟩
    · exact absurd h (jsSplitSpace_ne_nil cs)
    · rw [h] at ih
      by_cases hc : c = ' ' <;> simp [hc, List.count_cons] at ih ⊢ <;> omega

/-- Modelled from the claim: the number of whitespace-delimited tokens of a
string — maximal runs of non-whitespace characters, scanned left to
right. -/
def wsTokenAux : List Char → Bool → Nat
  | [], _ => 0
  | c :: cs, inWord =>
    if Char.isWhitespace c then wsTokenAux cs false
    else (if inWord then 0 else 1) + wsTokenAux cs true

/-- Modelled from the claim: whitespace-delimited token count. -/
def wsTokenCount (s : String) : Nat := wsTokenAux s.data false

/-- Counterexample to C9 as stated: for the content "hi  there" (two
spaces) create-then-read stores `wordCount` 3 — `split(' ')` counts the
empty field between the two spaces — while the whitespace-delimited token
count is 2. -/
theorem C9_counterexample :
    (getEntryByIdM 0 "u"
        (createEntryM "u" { content := "hi  there", mood := none, tags := none } 0 initState).2).map
      (fun e => e.metadata.wordCount) = .ok 3
    ∧ wsTokenCount "hi  there" = 2
    ∧ (3 : Nat) ≠ 2 :=
  ⟨by rfl, by rfl, by decide⟩

/-- C9 as amended: create-then-read returns the stored entry, whose
`wordCount` is the JavaScript `content.split(' ').length` — one more than
the number of space characters, empty fields counted — and whose
`characterCount` is the length; an update carrying new non-empty content
recomputes both the same way. -/
theorem C9_wordCount :
    (∀ userId d now s,
      getEntryByIdM (createEntryM userId d now s).1.1 userId (createEntryM userId d now s).2
        = .ok (createEntryM userId d now s).1.2
      ∧ ((createEntryM userId d now s).1.2).metadata.wordCount = d.content.data.count ' ' + 1
      ∧ ((createEntryM userId d now s).1.2).metadata.characterCount = d.content.length)
    ∧ (∀ entryId userId u now s e s2 c,
        updateEntryM entryId userId u now s = .ok (e, s2) → u.content = some c → c ≠ "" →
        e.metadata.wordCount = c.data.count ' ' + 1
        ∧ e.metadata.characterCount = c.length) := by
  constructor
  · intro userId d now s
    refine ⟨?_, jsSplitSpace_length d.content.data, rfl⟩
    unfold getEntryByIdM createEntryM
    rw [List.find?_cons_of_pos _ (by simp)]
    simp
  · intro entryId userId u now s e s2 c h hc hne
    unfold updateEntryM at h
    rcases hget : getEntryByIdM entryId userId s with e0 | e0 <;> rw [hget] at h
    · exact absurd h (by simp)
    · simp only [Except.ok.injEq, Prod.mk.injEq] at h
      obtain ⟨he, _⟩ := h
      subst he
      constructor
      · rw [hc]
        simp only [if_pos hne]
        exact jsSplitSpace_length c.data
      · rw [hc]
        simp [if_pos hne]

/-- Witness for C9 at the sample create. -/
theorem C9_witness :
    (getEntryByIdM 0 "u" sampleState = .ok (createEntryM "u" ⟨"hello", none, none⟩ 0 initState).1.2
     ∧ ((createEntryM "u" ⟨"hello", none, none⟩ 0 initState).1.2).metadata.wordCount
         = ("hello" : String).data.count ' ' + 1
     ∧ ((createEntryM "u" ⟨"hello", none, none⟩ 0 initState).1.2).metadata.characterCount
         = ("hello" : String).length) :=
  C9_wordCount.1 "u" ⟨"hello", none, none⟩ 0 initState

/-! ### Create-entry validation and HTTP statuses (C5) -/

/-- The oversized content used to exhibit the 500 response: 10,001 copies
of a letter. -/
def longContent : String := String.mk (List.replicate 10001 'a')

/-- Counterexample to C5 as stated: content over the 10,000-character bound
is answered 500, not 400 — the controller's own 400 check only covers falsy
content, and the service's validation error lands in the catch-all. -/
theorem C5_counterexample :
    (diaryCreateEntryC "u" (some longContent) none none 0 initState).1.status = 500
    ∧ (500 : Nat) ≠ 400 := by
  constructor
  · have hlen : longContent.length = 10001 := by
      show (List.replicate 10001 'a').length = 10001
      exact List.length_replicate 10001 'a'
    have hblank : jsIsBlank longContent = false := by rfl
    have hne : longContent ≠ "" := by
      intro h
      have h2 := congrArg String.length h
      rw [hlen] at h2
      exact absurd h2 (by decide)
    simp [diaryCreateEntryC, dsCreateEntry, hblank, hlen, hne]
  · decide

/-- C5 as amended: the service rejects blank (empty or whitespace-only) and
oversized content with a validation error and accepts the rest; the HTTP
endpoint answers 400 only for missing or empty-string content, 201 on
success, and 500 when the service's validation error reaches the catch-all
(whitespace-only or oversized content). -/
theorem C5_create_validation :
    (∀ userId d now s,
      (∃ msg, dsCreateEntry userId d now s = .error (.validation msg))
        ↔ (jsIsBlank d.content = true ∨ d.content.length > 10000))
    ∧ (∀ userId mood tags now s,
        (diaryCreateEntryC userId none mood tags now s).1.status = 400
        ∧ (diaryCreateEntryC userId (some "") mood tags now s).1.status = 400)
    ∧ (∀ userId c mood tags now s, jsIsBlank c = false → c.length ≤ 10000 →
        (diaryCreateEntryC userId (some c) mood tags now s).1.status = 201)
    ∧ (∀ userId c mood tags now s, c ≠ "" →
        (jsIsBlank c = true ∨ c.length > 10000) →
        (diaryCreateEntryC userId (some c) mood tags now s).1.status = 500) := by
  refine ⟨?_, ?_, ?_, ?_⟩
  · intro userId d now s
    rcases hb : jsIsBlank d.content <;> by_cases hl : d.content.length > 10000 <;>
      simp [dsCreateEntry, hb, hl]
  · intro userId mood tags now s
    exact ⟨rfl, rfl⟩
  · intro userId c mood tags now s hb hl
    have hne : c ≠ "" := by
      intro hc
      rw [hc] at hb
      exact absurd hb (by decide)
    have hnl : ¬ c.length > 10000 := by omega
    simp [diaryCreateEntryC, dsCreateEntry, hb, hnl, hne]
  · intro userId c mood tags now s hne herr
    rcases herr with hb | hl
    · simp [diaryCreateEntryC, dsCreateEntry, hb, hne]
    · rcases hb : jsIsBlank c <;>
        simp [diaryCreateEntryC, dsCreateEntry, hb, hl, hne]

/-- Witness for C5: whitespace-only content is answered 500, valid content
201, at concrete inputs. -/
theorem C5_witness :
    ((" " : String) ≠ "" ∧ (jsIsBlank " " = true ∨ (" " : String).length > 10000)
     ∧ (diaryCreateEntryC "u" (some " ") none none 0 initState).1.status = 500)
    ∧ (jsIsBlank "hello" = false ∧ ("hello" : String).length ≤ 10000
       ∧ (diaryCreateEntryC "u" (some "hello") none none 0 initState).1.status = 201) :=
  ⟨⟨by decide, Or.inl (by rfl),
    C5_create_validation.2.2.2 "u" " " none none 0 initState (by decide) (Or.inl (by rfl))⟩,
   ⟨by rfl, by decide,
    C5_create_validation.2.2.1 "u" "hello" none none 0 initState (by rfl) (by decide)⟩⟩

/-! ### The writing streak (C6) -/

/-- C6 exhibit: the two examples of the claim hold, duplicates count once,
but the "yesterday continues the streak" rule does not — a single entry
dated yesterday yields streak 0 from the source (its continuation branch
tests `currentDate + 1 day`, the day AFTER the anchor, contradicting its own
comment), while the spec-modelled streak yields 1. -/
theorem C6_streak_yesterday_bug :
    calculateWritingStreak 0 [-dayMs] = 0
    ∧ specWritingStreak 0 [-dayMs] = 1
    ∧ calculateWritingStreak 0 [0, -dayMs, -2 * dayMs] = 3
    ∧ calculateWritingStreak 0 [0, -3 * dayMs] = 1
    ∧ specWritingStreak 0 [0, -dayMs, -2 * dayMs] = 3
    ∧ specWritingStreak 0 [0, -3 * dayMs] = 1
    ∧ calculateWritingStreak 0 [0, 0, -dayMs] = 2
    ∧ calculateWritingStreak 0 [-dayMs, -2 * dayMs] = 0
    ∧ specWritingStreak 0 [-dayMs, -2 * dayMs] = 2 := by
  refine ⟨by decide, by decide, by decide, by decide, by decide, by decide, by decide,
    by decide, by decide⟩

/-! ### The sentiment trend and its input order (C7) -/

/-- Membership in the stable descending insertion. -/
theorem mem_insertByCreatedAtDesc (x y : Nat × Entry) (l : List (Nat × Entry)) :
    y ∈ insertByCreatedAtDesc x l ↔ y = x ∨ y ∈ l := by
  induction l with
  | nil => simp [insertByCreatedAtDesc]
  | cons z zs ih =>
    by_cases h : x.2.createdAt > z.2.createdAt
    · simp only [insertByCreatedAtDesc, if_pos h, List.mem_cons]
    · simp only [insertByCreatedAtDesc, if_neg h, List.mem_cons, ih]
      tauto

/-- The stable descending insertion preserves descending order. -/
theorem sorted_insertByCreatedAtDesc (x : Nat × Entry) (l : List (Nat × Entry))
    (h : l.Pairwise (fun a b => a.2.createdAt ≥ b.2.createdAt)) :
    (insertByCreatedAtDesc x l).Pairwise (fun a b => a.2.createdAt ≥ b.2.createdAt) := by
  induction l with
  | nil => simp [insertByCreatedAtDesc]
  | cons z zs ih =>
    rcases List.pairwise_cons.mp h with ⟨hz, hzs⟩
    by_cases hx : x.2.createdAt > z.2.createdAt
    · simp only [insertByCreatedAtDesc, if_pos hx]
      refine List.pairwise_cons.mpr ⟨?_, h⟩
      intro b hb
      rcases List.mem_cons.mp hb with rfl | hb
      · omega
      · have := hz b hb
        omega
    · simp only [insertByCreatedAtDesc, if_neg hx]
      refine List.pairwise_cons.mpr ⟨?_, ih hzs⟩
      intro b hb
      rcases (mem_insertByCreatedAtDesc x b zs).mp hb with rfl | hb
      · omega
      · exact hz b hb

/-- The accumulating insertion sort yields a descending list. -/
theorem sorted_sortByCreatedAtDesc_aux (l acc : List (Nat × Entry))
    (h : acc.Pairwise (fun a b => a.2.createdAt ≥ b.2.createdAt)) :
    (l.foldl (fun a x => insertByCreatedAtDesc x a) acc).Pairwise
      (fun a b => a.2.createdAt ≥ b.2.createdAt) := by
  induction l generalizing acc with
  | nil => exact h
  | cons z zs ih => exact ih _ (sorted_insertByCreatedAtDesc z acc h)

/-- The entry query returns entries newest first. -/
theorem sorted_getUserEntriesM (userId : String) (startDate endDate : Option Int)
    (lim : Option Nat) (s : DiaryState) :
    (getUserEntriesM userId startDate endDate lim s).Pairwise
      (fun a b => a.2.createdAt ≥ b.2.createdAt) := by
  unfold getUserEntriesM sortByCreatedAtDesc
  cases lim with
  | none => exact sorted_sortByCreatedAtDesc_aux _ _ List.Pairwise.nil
  | some n =>
    exact List.Pairwise.sublist (List.take_sublist _ _)
      (sorted_sortByCreatedAtDesc_aux _ _ List.Pairwise.nil)

/-- A two-entry fixture: the older entry (id 0, createdAt 0) has an insight
with score -1, the newer entry (id 1, createdAt 1000) one with score 1 —
the user's sentiment improved over time. -/
def trendState : DiaryState :=
  { entries :=
      [(0, { userId := "u", content := "old", mood := none, tags := [], createdAt := 0,
             updatedAt := 0, processed := true, processedAt := some 0,
             metadata := { wordCount := 1, characterCount := 3 } }),
       (1, { userId := "u", content := "new", mood := none, tags := [], createdAt := 1000,
             updatedAt := 1000, processed := true, processedAt := some 1000,
             metadata := { wordCount := 1, characterCount := 3 } })]
    insights :=
      [{ entryId := 0, sentiment := some { score := -1, magnitude := 1 }, emotions := [],
         entities := [], themes := [], triggers := [], copingStrategies := [], createdAt := 0 },
       { entryId := 1, sentiment := some { score := 1, magnitude := 1 }, emotions := [],
         entities := [], themes := [], triggers := [], copingStrategies := [], createdAt := 1000 }]
    nextId := 2 }

/-- Counterexample to C7 as stated: the scores are gathered newest first
([1, -1]), not chronologically ([-1, 1]); the endpoint answers "declining"
for a user whose chronological trend is "improving". -/
theorem C7_counterexample :
    sentimentScoresOf (gatherInsights "u" (-1) trendState) = [(1 : ℚ), -1]
    ∧ emotionalInsightsTrend "u" (-1) trendState = "declining"
    ∧ specSentimentTrend [(-1 : ℚ), 1] = "improving"
    ∧ ("declining" : String) ≠ "improving" := by
  have hg : sentimentScoresOf (gatherInsights "u" (-1) trendState) = [(1 : ℚ), -1] := by rfl
  refine ⟨hg, ?_, ?_, by decide⟩
  · show calculateTrend (sentimentScoresOf (gatherInsights "u" (-1) trendState)) = "declining"
    rw [hg]
    norm_num [calculateTrend, jsSum]
  · norm_num [specSentimentTrend, jsSum]

/-- C7 as amended: the trend function itself matches the spec description of
half-against-half means with the 0.1 thresholds (including the concrete
examples of the claim), but its input sequence is gathered newest first —
the entry query is descending by creation time. -/
theorem C7_sentiment_trend :
    (∀ scores : List ℚ, calculateTrend scores = specSentimentTrend scores)
    ∧ (∀ scores : List ℚ, scores.length < 2 → calculateTrend scores = "neutral")
    ∧ calculateTrend [1/2, 1/2, -(1/2), -(1/2)] = "declining"
    ∧ calculateTrend [1/10, 1/10] = "stable"
    ∧ (∀ q : ℚ, calculateTrend [q] = "neutral")
    ∧ (∀ userId startDate endDate lim s,
        (getUserEntriesM userId startDate endDate lim s).Pairwise
          (fun a b => a.2.createdAt ≥ b.2.createdAt)) := by
  refine ⟨fun scores => rfl, ?_, ?_, ?_, fun q => rfl, sorted_getUserEntriesM⟩
  · intro scores h
    unfold calculateTrend
    rw [if_pos h]
  · norm_num [calculateTrend, jsSum]
  · norm_num [calculateTrend, jsSum]

/-- Witness for C7 at a concrete short sequence. -/
theorem C7_witness :
    (([(3 : ℚ)/10] : List ℚ).length < 2 ∧ calculateTrend [(3 : ℚ)/10] = "neutral") :=
  ⟨by decide, C7_sentiment_trend.2.1 [(3 : ℚ)/10] (by decide)⟩

/-! ### Provider JSON extraction and defaulting (C2) -/

/-- The coerced sentiment label is always one of the accepted three. -/
theorem contains_coerce_sentiment (v : JsonValue) :
    validSentiments.contains (coerceSentimentFields v).sentiment = true := by
  unfold coerceSentimentFields
  rcases hf : getField v "sentiment" with _ | w
  · simp [hf, validSentiments]
  · cases w <;> simp [hf, validSentiments]
    rename_i sv
    by_cases hs : sv = "positive" ∨ sv = "neutral" ∨ sv = "negative" <;> simp [hs] <;> tauto

/-- The coerced urgency label is always one of the accepted three. -/
theorem contains_coerce_urgency (v : JsonValue) :
    validUrgency.contains (coerceSentimentFields v).urgency = true := by
  unfold coerceSentimentFields
  rcases hf : getField v "urgency" with _ | w
  · simp [hf, validUrgency]
  · cases w <;> simp [hf, validUrgency]
    rename_i sv
    by_cases hs : sv = "low" ∨ sv = "medium" ∨ sv = "high" <;> simp [hs] <;> tauto

/-- Counterexample to C2 as stated: `analyzeDiaryEntry` on a provider text
whose JSON object decodes but lacks a `themes` field returns the object
unchanged — the documented diary default `["personal_reflection"]` is NOT
filled in per-field; it appears only in the whole-object fallback. -/
theorem C2_counterexample :
    analyzeDiaryEntryM "ok \x7b\"triggers\":[\"exams\"]\x7d"
      = .obj [("triggers", .arr [.str "exams"])]
    ∧ getField (analyzeDiaryEntryM "ok \x7b\"triggers\":[\"exams\"]\x7d") "themes" = none
    ∧ getField diaryFallback "themes" = some (.arr [.str "personal_reflection"]) :=
  ⟨rfl, rfl, rfl⟩

/-- C2 as amended: the sentiment analyzer strips fences, extracts the
first-to-last brace span, decodes, and coerces each of its four fields to
the documented default when missing or ill-typed (yielding the claimed
result on the claim's example, and always a valid label — no parse
exception escapes); the diary analyzer extracts and decodes the same way
but returns the decoded object unchanged, using the whole-object fallback
(themes `["personal_reflection"]`, ...) only when extraction or decoding
fails. -/
theorem C2_provider_json :
    analyzeUserSentimentM "Sure! ```json\n\x7b\"sentiment\":\"positive\"\x7d\n```"
      = { sentiment := "positive", urgency := "low", emotions := [.str "unknown"],
          needsSupport := false }
    ∧ (∀ raw, validSentiments.contains (analyzeUserSentimentM raw).sentiment = true
        ∧ validUrgency.contains (analyzeUserSentimentM raw).urgency = true)
    ∧ (∀ raw, parseJsonChars (cleanSentimentInput raw) = none →
        analyzeUserSentimentM raw = defaultSentimentAnalysis)
    ∧ (∀ fields sv, getField (.obj fields) "sentiment" = some (.str sv) →
        validSentiments.contains sv = true →
        (coerceSentimentFields (.obj fields)).sentiment = sv)
    ∧ (∀ v, getField v "sentiment" = none →
        (coerceSentimentFields v).sentiment = "neutral")
    ∧ (∀ v, getField v "emotions" = none →
        (coerceSentimentFields v).emotions = [.str "unknown"])
    ∧ (∀ raw, extractBraces raw.data = none → analyzeDiaryEntryM raw = diaryFallback)
    ∧ (∀ raw m, extractBraces raw.data = some m → parseJsonChars m = none →
        analyzeDiaryEntryM raw = diaryFallback)
    ∧ (∀ raw m v, extractBraces raw.data = some m → parseJsonChars m = some v →
        analyzeDiaryEntryM raw = v)
    ∧ getField diaryFallback "themes" = some (.arr [.str "personal_reflection"]) := by
  refine ⟨rfl, ?_, ?_, ?_, ?_, ?_, ?_, ?_, ?_, rfl⟩
  · intro raw
    unfold analyzeUserSentimentM
    cases parseJsonChars (cleanSentimentInput raw) with
    | none => exact ⟨rfl, rfl⟩
    | some v => exact ⟨contains_coerce_sentiment v, contains_coerce_urgency v⟩
  · intro raw h
    unfold analyzeUserSentimentM
    rw [h]
  · intro fields sv hf hvalid
    unfold coerceSentimentFields
    simp only [hf, hvalid, if_pos]
  · intro v hf
    unfold coerceSentimentFields
    simp only [hf]
  · intro v hf
    unfold coerceSentimentFields
    simp only [hf]
  · intro raw h
    unfold analyzeDiaryEntryM
    rw [h]
  · intro raw m h hp
    unfold analyzeDiaryEntryM
    rw [h]
    show (match parseJsonChars m with | some v => v | none => diaryFallback) = diaryFallback
    rw [hp]
  · intro raw m v h hp
    unfold analyzeDiaryEntryM
    rw [h]
    show (match parseJsonChars m with | some v => v | none => diaryFallback) = v
    rw [hp]

/-- Witness for C2 at concrete inputs: a brace-free provider text falls back
to the diary default object, and an arbitrary garbage text still yields a
valid sentiment label. -/
theorem C2_witness :
    (extractBraces ("hello" : String).data = none ∧ analyzeDiaryEntryM "hello" = diaryFallback)
    ∧ (validSentiments.contains (analyzeUserSentimentM "garbage").sentiment = true
       ∧ validUrgency.contains (analyzeUserSentimentM "garbage").urgency = true) :=
  ⟨⟨rfl, C2_provider_json.2.2.2.2.2.2.1 "hello" rfl⟩, C2_provider_json.2.1 "garbage"⟩

/-! ### Top-N aggregation lists (C8) -/

/-- Inserting into a sorted-descending count list is a permutation. -/
theorem perm_insertCountDesc (x : String × Nat) (l : List (String × Nat)) :
    List.Perm (insertCountDesc x l) (x :: l) := by
  induction l with
  | nil => exact List.Perm.refl _
  | cons y ys ih =>
    by_cases h : x.2 > y.2
    · simp only [insertCountDesc, if_pos h]
      exact List.Perm.refl _
    · simp only [insertCountDesc, if_neg h]
      exact (ih.cons y).trans (List.Perm.swap x y ys)

/-- The accumulated insertion sort permutes the concatenation of the
accumulator with the input. -/
theorem perm_jsSortCountDesc_aux (l acc : List (String × Nat)) :
    List.Perm (l.foldl (fun a x => insertCountDesc x a) acc) (acc ++ l) := by
  induction l generalizing acc with
  | nil => simp
  | cons x xs ih =>
    have h1 := ih (insertCountDesc x acc)
    have h2 : List.Perm ((insertCountDesc x acc) ++ xs) (acc ++ x :: xs) :=
      ((perm_insertCountDesc x acc).append_right xs).trans List.perm_middle.symm
    exact h1.trans h2

/-- The count sort is a permutation of its input. -/
theorem perm_jsSortCountDesc (l : List (String × Nat)) :
    List.Perm (jsSortCountDesc l) l := by
  simpa using perm_jsSortCountDesc_aux l []

/-- Inserting into a sorted-descending count list keeps it sorted. -/
theorem sorted_insertCountDesc (x : String × Nat) (l : List (String × Nat))
    (h : l.Pairwise (fun a b => a.2 ≥ b.2)) :
    (insertCountDesc x l).Pairwise (fun a b => a.2 ≥ b.2) := by
  induction l with
  | nil => simp [insertCountDesc]
  | cons y ys ih =>
    rcases List.pairwise_cons.mp h with ⟨hy, hys⟩
    by_cases hx : x.2 > y.2
    · simp only [insertCountDesc, if_pos hx]
      refine List.pairwise_cons.mpr ⟨?_, h⟩
      intro b hb
      rcases List.mem_cons.mp hb with rfl | hb
      · omega
      · have := hy b hb
        omega
    · simp only [insertCountDesc, if_neg hx]
      refine List.pairwise_cons.mpr ⟨?_, ih hys⟩
      intro b hb
      rcases List.mem_cons.mp ((perm_insertCountDesc x ys).mem_iff.mp hb) with rfl | hb
      · omega
      · exact hy b hb

/-- The count sort produces a descending list. -/
theorem sorted_jsSortCountDesc_aux (l acc : List (String × Nat))
    (h : acc.Pairwise (fun a b => a.2 ≥ b.2)) :
    (l.foldl (fun a x => insertCountDesc x a) acc).Pairwise (fun a b => a.2 ≥ b.2) := by
  induction l generalizing acc with
  | nil => exact h
  | cons x xs ih => exact ih _ (sorted_insertCountDesc x acc h)

/-- Stability of the insertion at one count value: into a sorted list, the
new element lands after every element of equal count, so the filter at its
count gains it at the end, and filters at other counts are untouched. -/
theorem filter_insertCountDesc (x : String × Nat) (l : List (String × Nat)) (c : Nat)
    (h : l.Pairwise (fun a b => a.2 ≥ b.2)) :
    (insertCountDesc x l).filter (fun p => p.2 == c)
      = if x.2 = c then (l.filter (fun p => p.2 == c)) ++ [x]
        else l.filter (fun p => p.2 == c) := by
  induction l with
  | nil =>
    by_cases hc : x.2 = c <;> simp [insertCountDesc, hc]
  | cons y ys ih =>
    rcases List.pairwise_cons.mp h with ⟨hy, hys⟩
    by_cases hx : x.2 > y.2
    · simp only [insertCountDesc, if_pos hx]
      by_cases hc : x.2 = c
      · have hempty : (y :: ys).filter (fun p => p.2 == c) = [] := by
          rw [List.filter_eq_nil_iff]
          intro b hb
          have hble : b.2 ≤ y.2 := by
            rcases List.mem_cons.mp hb with rfl | hb
            · omega
            · exact hy b hb
          simp only [beq_iff_eq]
          omega
        rw [List.filter_cons_of_pos (by simp [hc]), if_pos hc, hempty]
        rfl
      · rw [List.filter_cons_of_neg (by simp [hc]), if_neg hc]
    · simp only [insertCountDesc, if_neg hx]
      by_cases hyc : y.2 = c
      · rw [List.filter_cons_of_pos (by simp [hyc]), List.filter_cons_of_pos (by simp [hyc]),
          ih hys]
        by_cases hc : x.2 = c <;> simp [hc]
      · rw [List.filter_cons_of_neg (by simp [hyc]), List.filter_cons_of_neg (by simp [hyc]),
          ih hys]

/-- Stability of the accumulated sort, fold form. -/
theorem filter_jsSortCountDesc_aux (l acc : List (String × Nat)) (c : Nat)
    (h : acc.Pairwise (fun a b => a.2 ≥ b.2)) :
    ((l.foldl (fun a x => insertCountDesc x a) acc).filter (fun p => p.2 == c))
      = acc.filter (fun p => p.2 == c) ++ l.filter (fun p => p.2 == c) := by
  induction l generalizing acc with
  | nil => simp
  | cons x xs ih =>
    show ((xs.foldl (fun a x => insertCountDesc x a) (insertCountDesc x acc)).filter
        (fun p => p.2 == c)) = _
    rw [ih (insertCountDesc x acc) (sorted_insertCountDesc x acc h),
      filter_insertCountDesc x acc c h]
    by_cases hc : x.2 = c
    · rw [if_pos hc, List.filter_cons_of_pos (by simp [hc])]
      simp
    · rw [if_neg hc, List.filter_cons_of_neg (by simp [hc])]

/-- Stability of the count sort: ties are kept in first-seen order — for
every count value the sorted list restricted to that count equals the input
restricted to it. -/
theorem filter_jsSortCountDesc (l : List (String × Nat)) (c : Nat) :
    (jsSortCountDesc l).filter (fun p => p.2 == c) = l.filter (fun p => p.2 == c) := by
  simpa using filter_jsSortCountDesc_aux l [] c List.Pairwise.nil

/-- Bumping a counter touches only the key's value: the key list gains the
key at the end exactly when it is new. -/
theorem map_fst_bumpCount (acc : List (String × Nat)) (k : String) :
    (bumpCount acc k).map Prod.fst
      = if k ∈ acc.map Prod.fst then acc.map Prod.fst else acc.map Prod.fst ++ [k] := by
  induction acc with
  | nil => simp [bumpCount]
  | cons p rest ih =>
    by_cases hk : p.1 = k
    · simp [bumpCount, hk]
    · simp only [bumpCount, if_neg hk, List.map_cons]
      rw [ih]
      have hne : ¬ k = p.1 := fun h => hk h.symm
      by_cases hm : k ∈ rest.map Prod.fst
      · rw [if_pos hm, if_pos (by simp [List.mem_cons, hm])]
      · rw [if_neg hm, if_neg (by simp [List.mem_cons, hne, hm])]
        rfl

/-- First-seen deduplication only consults membership of the seen list. -/
theorem jsSetDedupAux_congr {α : Type} [DecidableEq α] (l : List α) (s1 s2 : List α)
    (h : ∀ a, a ∈ s1 ↔ a ∈ s2) : jsSetDedupAux s1 l = jsSetDedupAux s2 l := by
  induction l generalizing s1 s2 with
  | nil => rfl
  | cons x xs ih =>
    simp only [jsSetDedupAux]
    by_cases hx : x ∈ s1
    · rw [if_pos hx, if_pos ((h x).mp hx)]
      exact ih s1 s2 h
    · rw [if_neg hx, if_neg (fun hc => hx ((h x).mpr hc))]
      refine congrArg _ (ih _ _ ?_)
      intro a
      simp [h a]

/-- The keys of the counter built by the fold are the first-seen
deduplication of the occurrence list. -/
theorem map_fst_foldl_bumpCount (names : List String) (acc : List (String × Nat)) :
    (names.foldl bumpCount acc).map Prod.fst
      = acc.map Prod.fst ++ jsSetDedupAux (acc.map Prod.fst) names := by
  induction names generalizing acc with
  | nil => simp [jsSetDedupAux]
  | cons k ks ih =>
    show ((ks.foldl bumpCount (bumpCount acc k)).map Prod.fst) = _
    rw [ih (bumpCount acc k), map_fst_bumpCount]
    by_cases hk : k ∈ acc.map Prod.fst
    · rw [if_pos hk]
      simp only [jsSetDedupAux, if_pos hk]
    · rw [if_neg hk]
      simp only [jsSetDedupAux, if_neg hk]
      rw [jsSetDedupAux_congr ks (acc.map Prod.fst ++ [k]) (k :: acc.map Prod.fst)
        (by intro a; simp; tauto)]
      simp

/-- First-seen deduplication is a sublist of the input. -/
theorem jsSetDedupAux_sublist {α : Type} [DecidableEq α] (l seen : List α) :
    List.Sublist (jsSetDedupAux seen l) l := by
  induction l generalizing seen with
  | nil => simp [jsSetDedupAux]
  | cons x xs ih =>
    simp only [jsSetDedupAux]
    by_cases hx : x ∈ seen
    · rw [if_pos hx]
      exact (ih seen).cons x
    · rw [if_neg hx]
      exact (ih (x :: seen)).cons₂ x

/-- First-seen deduplication has no duplicates and avoids the seen list. -/
theorem jsSetDedupAux_nodup {α : Type} [DecidableEq α] (l seen : List α) :
    (jsSetDedupAux seen l).Nodup ∧ ∀ a ∈ jsSetDedupAux seen l, a ∉ seen := by
  induction l generalizing seen with
  | nil => simp [jsSetDedupAux]
  | cons x xs ih =>
    simp only [jsSetDedupAux]
    by_cases hx : x ∈ seen
    · rw [if_pos hx]
      exact ih seen
    · rw [if_neg hx]
      obtain ⟨hnd, hns⟩ := ih (x :: seen)
      refine ⟨List.nodup_cons.mpr ⟨?_, hnd⟩, ?_⟩
      · intro hc
        exact (hns x hc) (List.mem_cons_self x seen)
      · intro a ha
        rcases List.mem_cons.mp ha with rfl | ha
        · exact hx
        · intro hc
          exact (hns a ha) (List.mem_cons_of_mem x hc)

/-- A fixture showing ranking and the first-seen tie break: one insight with
emotions calm, joy, hope, joy and triggers exams, family, exams. -/
def sampleInsights : List Insight :=
  [{ entryId := 0, sentiment := none,
     emotions := [{ name := "calm", confidence := 1 }, { name := "joy", confidence := 1 },
                  { name := "hope", confidence := 1 }, { name := "joy", confidence := 1 }],
     entities := [], themes := [],
     triggers := ["exams", "family", "exams"], copingStrategies := [], createdAt := 0 }]

/-- C8: the four top-N lists are truncated to five; the count sort behind
`topEmotions`/`topThemes` is a permutation, descending in count, and stable
(ties keep first-seen order, the counter's key order being exactly the
first-seen deduplication of the occurrences); `commonTriggers` and
`effectiveCopingStrategies` are set-collapsed in first-seen order with no
frequency ranking — duplicate-free sublists of their source collections; on
the fixture, "joy" (twice) ranks first and the calm/hope tie keeps calm
first, while triggers collapse to [exams, family]. -/
theorem C8_top_lists :
    (∀ ins : List Insight,
      (topEmotions ins).length ≤ 5 ∧ (topThemes ins).length ≤ 5
      ∧ (commonTriggers ins).length ≤ 5 ∧ (effectiveCopingStrategies ins).length ≤ 5)
    ∧ (∀ l : List (String × Nat),
        List.Perm (jsSortCountDesc l) l
        ∧ (jsSortCountDesc l).Pairwise (fun a b => a.2 ≥ b.2)
        ∧ ∀ c, (jsSortCountDesc l).filter (fun p => p.2 == c)
            = l.filter (fun p => p.2 == c))
    ∧ (∀ ins : List Insight,
        (emotionCounts ins).map Prod.fst = jsSetDedup (emotionNames ins)
        ∧ (themeCounts ins).map Prod.fst = jsSetDedup (ins.flatMap (fun i => i.themes)))
    ∧ (∀ ins : List Insight,
        (commonTriggers ins).Nodup ∧ List.Sublist (commonTriggers ins) (allTriggers ins)
        ∧ (effectiveCopingStrategies ins).Nodup
        ∧ List.Sublist (effectiveCopingStrategies ins) (allCopingStrategies ins))
    ∧ topEmotions sampleInsights = [("joy", 2), ("calm", 1), ("hope", 1)]
    ∧ commonTriggers sampleInsights = ["exams", "family"] := by
  refine ⟨?_, ?_, ?_, ?_, by decide, by decide⟩
  · intro ins
    exact ⟨List.length_take_le 5 _, List.length_take_le 5 _,
      List.length_take_le 5 _, List.length_take_le 5 _⟩
  · intro l
    exact ⟨perm_jsSortCountDesc l, sorted_jsSortCountDesc_aux l [] List.Pairwise.nil,
      fun c => filter_jsSortCountDesc l c⟩
  · intro ins
    constructor
    · simpa using map_fst_foldl_bumpCount (emotionNames ins) []
    · simpa using map_fst_foldl_bumpCount (ins.flatMap (fun i => i.themes)) []
  · intro ins
    refine ⟨?_, ?_, ?_, ?_⟩
    · exact List.Nodup.sublist (List.take_sublist _ _) (jsSetDedupAux_nodup (allTriggers ins) []).1
    · exact (List.take_sublist _ _).trans (jsSetDedupAux_sublist (allTriggers ins) [])
    · exact List.Nodup.sublist (List.take_sublist _ _)
        (jsSetDedupAux_nodup (allCopingStrategies ins) []).1
    · exact (List.take_sublist _ _).trans (jsSetDedupAux_sublist (allCopingStrategies ins) [])

/-! ### The batch pipeline and the shadowed limit (C3) -/

/-- An analysis oracle that always succeeds with an empty insight. -/
def succOracle : AnalysisOracle := fun _ =>
  some { sentiment := none, emotions := [], entities := [], themes := [],
         triggers := none, copingStrategies := none }

/-- C3 exhibit: `processPendingAnalysis` always throws the wrapped
`TypeError` — the `limit` parameter shadows the Firestore `limit` helper —
for every limit, oracle and store; the spec-modelled operation on the
one-unprocessed-entry fixture selects that entry, returns count 1, and
(because the source `await`s `Promise.all`) its returned state already has
the entry processed when the analysis succeeds. -/
theorem C3_processPending_shadowed_limit :
    (∀ lim oracle now s, processPendingAnalysisM lim oracle now s
        = .error "Failed to process pending analysis: Failed to get unprocessed entries: limit is not a function")
    ∧ (specGetUnprocessed 5 sampleState).length = 1
    ∧ (∀ p ∈ (specGetUnprocessed 5 sampleState), p.2.processed = false)
    ∧ (specProcessPending 5 succOracle 0 sampleState).2 = 1
    ∧ (∀ p ∈ (specProcessPending 5 succOracle 0 sampleState).1.entries, p.2.processed = true)
    ∧ (specProcessPending 5 (fun _ => none) 0 sampleState).2 = 1
    ∧ (∀ p ∈ (specProcessPending 5 (fun _ => none) 0 sampleState).1.entries,
        p.2.processed = false) := by
  refine ⟨?_, by rfl, by decide, by rfl, by decide, by rfl, by decide⟩
  intro lim oracle now s
  rfl

/-! ### Bearer authentication (C10) -/

/-- The production environment: no development mode, no SKIP_AUTH. -/
def prodEnv : AuthEnv := { nodeEnvDevelopment := false, skipAuthTrue := false }

/-- C10 exhibit: with the bypass enabled (`NODE_ENV=development` or
`SKIP_AUTH=true`) a request with no Authorization header at all proceeds to
the handler with the stub test identity, not a 401 — contradicting the
claim and the repository's own API documentation; with the bypass disabled
the middleware behaves as claimed: 401 for a missing header, a non-Bearer
scheme, an empty token, an invalid or an expired token, and only a request
whose token verifies reaches the handler, with the verified identity
attached. -/
theorem C10_auth_bypass :
    (authMiddlewareM { nodeEnvDevelopment := false, skipAuthTrue := true }
        (fun _ => .invalidToken) none = .proceed testUser)
    ∧ (authMiddlewareM { nodeEnvDevelopment := true, skipAuthTrue := false }
        (fun _ => .invalidToken) none = .proceed testUser)
    ∧ (∀ verify, authMiddlewareM prodEnv verify none = .reject 401)
    ∧ (∀ verify, authMiddlewareM prodEnv verify (some "Token abc") = .reject 401)
    ∧ (∀ verify, authMiddlewareM prodEnv verify (some "Bearer ") = .reject 401)
    ∧ (authMiddlewareM prodEnv (fun _ => .invalidToken) (some "Bearer abc") = .reject 401)
    ∧ (authMiddlewareM prodEnv (fun _ => .expired) (some "Bearer abc") = .reject 401)
    ∧ (authMiddlewareM prodEnv (fun _ => .ok "alice") (some "Bearer abc") = .proceed "alice")
    ∧ (∀ verify h u, authMiddlewareM prodEnv verify h = .proceed u →
        ∃ t, h = some t ∧ verify (String.mk (t.data.drop 7)) = .ok u)
    ∧ ttsAuthExempt "/download/x.mp3" = true
    ∧ ttsAuthExempt "/stream/x.mp3" = true
    ∧ ttsAuthExempt "/health" = false := by
  refine ⟨rfl, rfl, fun verify => rfl, ?_, ?_, rfl, rfl, rfl, ?_, rfl, rfl, rfl⟩
  · intro verify
    rfl
  · intro verify
    rfl
  · intro verify h u hres
    cases h with
    | none =>
      rw [show authMiddlewareM prodEnv verify none = .reject 401 from rfl] at hres
      exact absurd hres (by simp)
    | some t =>
      refine ⟨t, rfl, ?_⟩
      have hred : authMiddlewareM prodEnv verify (some t)
          = (if t = "" then .reject 401
             else if ¬ (List.isPrefixOf ("Bearer " : String).data t.data) then .reject 401
             else if String.mk (t.data.drop 7) = "" then .reject 401
             else match verify (String.mk (t.data.drop 7)) with
                  | .ok w => .proceed w
                  | .invalidToken => .reject 401
                  | .expired => .reject 401
                  | .otherFailure => .reject 500) := rfl
      rw [hred] at hres
      split_ifs at hres with h1 h2 h3
      cases hv : verify (String.mk (t.data.drop 7)) <;> rw [hv] at hres
      · simp only [AuthResult.proceed.injEq] at hres
        rw [hres]
      · exact absurd hres (by simp)
      · exact absurd hres (by simp)
      · exact absurd hres (by simp)

/-- Witness for C3: the concrete batch call on the sample store fails with
the wrapped TypeError. -/
theorem C3_witness :
    processPendingAnalysisM 5 succOracle 0 sampleState
      = .error "Failed to process pending analysis: Failed to get unprocessed entries: limit is not a function" :=
  C3_processPending_shadowed_limit.1 5 succOracle 0 sampleState

/-- Witness for C8: the truncation bounds at the concrete fixture. -/
theorem C8_witness :
    (topEmotions sampleInsights).length ≤ 5 ∧ (topThemes sampleInsights).length ≤ 5
    ∧ (commonTriggers sampleInsights).length ≤ 5
    ∧ (effectiveCopingStrategies sampleInsights).length ≤ 5 :=
  C8_top_lists.1 sampleInsights

/-- A verifier that rejects every token as invalid. -/
def alwaysInvalid : String → VerifyOutcome := fun _ => .invalidToken

/-- Witness for C10: a concrete header-less production request is answered
401. -/
theorem C10_witness :
    authMiddlewareM prodEnv alwaysInvalid none = .reject 401 :=
  C10_auth_bypass.2.2.1 alwaysInvalid

end MentalWellness






